import Mathlib

/-!
Verification development for the workout-streak-bot repository.

The backing Redis store is shallowly embedded as a record of association
lists (one per key family used by `src/redis_client.py`); Redis hash
operations (HGET / HSET / HDEL / HINCRBY / SADD / EXISTS) become list
operations, and each Python function of `src/redis_client.py`,
`src/main.py` and `src/chart_generator.py` that the claims touch is
translated into a Lean function over that state.  The ambient wall clock
`int(time.time())` becomes an explicit `now : Int` argument, and the
module-level `redis_conn` (which may be `None`) becomes an explicit
`Option Store` where a claim depends on it.
-/

namespace WorkoutStreak

/-- Lookup in an association list: the value of the first pair whose key
matches (the semantics of a finite map / Redis HGET). -/
def alGet {α : Type} [DecidableEq α] {β : Type} : List (α × β) → α → Option β
  | [], _ => none
  | (k, v) :: t, q => if k = q then some v else alGet t q

/-- Update-or-append in an association list (Redis HSET of one field). -/
def alSet {α : Type} [DecidableEq α] {β : Type} : List (α × β) → α → β → List (α × β)
  | [], k, v => [(k, v)]
  | (k1, v1) :: t, k, v => if k1 = k then (k, v) :: t else (k1, v1) :: alSet t k v

/-- Remove a key from an association list (Redis HDEL of one field). -/
def alDel {α : Type} [DecidableEq α] {β : Type} : List (α × β) → α → List (α × β)
  | [], _ => []
  | (k1, v1) :: t, k => if k1 = k then alDel t k else (k1, v1) :: alDel t k

theorem alGet_alSet {α : Type} [DecidableEq α] {β : Type}
    (l : List (α × β)) (k q : α) (v : β) :
    alGet (alSet l k v) q = if k = q then some v else alGet l q := by
  induction l with
  | nil => simp [alSet, alGet]
  | cons p t ih =>
    obtain ⟨k1, v1⟩ := p
    by_cases h1 : k1 = k
    · subst h1
      by_cases h2 : k1 = q <;> simp [alSet, alGet, h2]
    · by_cases h2 : k1 = q
      · subst h2
        have hkq : ¬ k = k1 := fun h => h1 h.symm
        simp [alSet, alGet, h1, hkq]
      · simp [alSet, alGet, h1, h2, ih]

theorem alGet_alDel {α : Type} [DecidableEq α] {β : Type}
    (l : List (α × β)) (k q : α) :
    alGet (alDel l k) q = if k = q then none else alGet l q := by
  induction l with
  | nil => simp [alDel, alGet]
  | cons p t ih =>
    obtain ⟨k1, v1⟩ := p
    by_cases h1 : k1 = k
    · subst h1
      by_cases h2 : k1 = q
      · subst h2; simp [alDel, alGet, ih]
      · have hkq : ¬ k1 = q := h2
        simp [alDel, alGet, hkq, ih]
    · by_cases h2 : k1 = q
      · subst h2
        have hkq : ¬ k = k1 := fun h => h1 h.symm
        simp [alDel, alGet, h1, hkq]
      · simp [alDel, alGet, h1, h2, ih]

theorem alSet_ne_nil {α : Type} [DecidableEq α] {β : Type}
    (l : List (α × β)) (k : α) (v : β) : alSet l k v ≠ [] := by
  cases l with
  | nil => simp [alSet]
  | cons p t =>
    obtain ⟨k1, v1⟩ := p
    by_cases h : k1 = k <;> simp [alSet, h]

/-- An exercise definition from `config.py`'s `EXERCISES` dict:
`{internal_id: {"name": ..., "alias": ..., "goal": ...}}`. -/
structure ExerciseDef where
  name : String
  exAlias : String
  goal : Int
deriving Repr, DecidableEq

/-- The `EXERCISES` configuration of `src/config.py`, in dict insertion
order (so that `next(iter(EXERCISES))` is the first element). -/
def EXERCISES : List (String × ExerciseDef) :=
  [("plank", ⟨"Plank (Seconds)", "plk", 300⟩),
   ("rope", ⟨"Rope Skipping (Mins)", "rop", 60⟩),
   ("pushup", ⟨"Push-Ups", "psh", 500⟩),
   ("squat", ⟨"Squats", "sqt", 1000⟩),
   ("abs", ⟨"Abs Circuit (Reps)", "abs", 1000⟩),
   ("jab", ⟨"Jabs", "jab", 2000⟩),
   ("uppercut", ⟨"Uppercuts", "upc", 1000⟩),
   ("straight", ⟨"Straights", "str", 2000⟩)]

/-- The Redis keyspace of `src/redis_client.py`, one field per key family:
`exercise:details:<id>` hashes, the `exercise:aliases` hash, `player:<id>`
score hashes, `user:info:<id>` hashes and the `players:ids` set.  Score
values are kept as `Int` (the code round-trips them through strings with
`int(...)` at every read). -/
structure Store where
  exerciseDetails : List (String × List (String × String))
  exerciseAliases : List (String × String)
  playerScores : List (Nat × List (String × Int))
  userInfo : List (Nat × List (String × String))
  playersSet : List Nat
deriving Repr, DecidableEq

def emptyStore : Store :=
  { exerciseDetails := [], exerciseAliases := [], playerScores := [],
    userInfo := [], playersSet := [] }

/-- Redis `EXISTS` on a hash key: a hash key exists iff it has at least
one field. -/
def keyExistsHash (d : List (String × List (String × String))) (k : String) : Bool :=
  !((alGet d k).getD []).isEmpty

/-- One `pipe.hset(details_key, mapping={"name": ..., "goal": str(...)})`
write of `setup_initial_data`. -/
def hsetDetail (d : List (String × List (String × String)))
    (exId nm gl : String) : List (String × List (String × String)) :=
  alSet d exId (alSet (alSet ((alGet d exId).getD []) "name" nm) "goal" gl)

/-- The detail writes of `setup_initial_data`'s pipeline, over `EXERCISES`. -/
def seedDetails (d : List (String × List (String × String))) :
    List (String × List (String × String)) :=
  EXERCISES.foldl (fun acc p => hsetDetail acc p.1 p.2.name (toString p.2.goal)) d

/-- The alias index written by `setup_initial_data`: the pipeline first
deletes `exercise:aliases`, then HSETs the accumulated `aliases` dict, so
the result is exactly the mapping alias to exercise id built from
`EXERCISES`. -/
def seedAliases : List (String × String) :=
  EXERCISES.foldl (fun acc p => alSet acc p.2.exAlias p.1) []

/-- The `needs_setup` branch of `setup_initial_data` (the pipeline body). -/
def seedWrites (st : Store) : Store :=
  { st with exerciseDetails := seedDetails st.exerciseDetails,
            exerciseAliases := seedAliases }

/-- `example_ex_id = next(iter(EXERCISES))` — the first key of the
(nonempty, fixed) `EXERCISES` dict. -/
def exampleExId : String := (EXERCISES.map Prod.fst).headD ""

/-- `setup_initial_data` of `src/redis_client.py`: seeds exercise aliases
and details iff the detail record of the first configured exercise is
absent (`needs_setup = not redis_conn.exists(...)`). -/
def setup_initial_data (st : Store) : Store :=
  if keyExistsHash st.exerciseDetails exampleExId then st else seedWrites st

/-- Python truthiness of an optional string (`if username:` and
`user_info.get(...)` checks: `None` and the empty string are falsy). -/
def pyTruthyOpt : Option String → Bool
  | none => false
  | some x => !x.isEmpty

/-- Python's `str.lower()` (character-wise lowercasing; the aliases this
program handles are ASCII). -/
def pyLower (s : String) : String := ⟨s.data.map Char.toLower⟩

def parseNatChars : List Char → Option Nat
  | [] => none
  | l => l.foldl (fun acc c =>
      match acc with
      | none => none
      | some n => if c.isDigit then some (n * 10 + (c.toNat - 48)) else none)
      (some 0)

/-- Python `int(s)` under `try: ... except: ...` — parse or fall through.
This models `int(...)` on the strings the program itself stores (`str` of
an integer: an optional minus sign followed by digits). -/
def pyInt (s : String) : Option Int :=
  match s.data with
  | [] => none
  | '-' :: rest => (parseNatChars rest).map (fun n => -(n : Int))
  | l => (parseNatChars l).map (fun n => (n : Int))

/-- `store_user_info` of `src/redis_client.py`: builds
`info_to_store = {"first_name": ...}`, adds `"username"` when truthy and
otherwise HDELs the field, adds `"last_update": str(t)` when a time is
given, then HSETs the mapping (it is never empty: `first_name` is always
present). -/
def store_user_info (st : Store) (uid : Nat) (firstName : String)
    (username : Option String) (updateTime : Option Int) : Store :=
  let delInfo := alSet st.userInfo uid (alDel ((alGet st.userInfo uid).getD []) "username")
  let st1 := if pyTruthyOpt username then st else { st with userInfo := delInfo }
  let fields := [("first_name", firstName)]
      ++ (if pyTruthyOpt username then [("username", username.getD "")] else [])
      ++ (match updateTime with
          | some t => [("last_update", toString t)]
          | none => [])
  let h := fields.foldl (fun acc p => alSet acc p.1 p.2)
             ((alGet st1.userInfo uid).getD [])
  { st1 with userInfo := alSet st1.userInfo uid h }

/-- `get_user_display_name_and_time` of `src/redis_client.py`: display
name preference is truthy `username` (with an at-sign), then truthy
`first_name`, then the fallback; the `last_update` field is parsed with
`int(...)`, falling back to `None`. -/
def get_user_display_name_and_time (st : Store) (uid : Nat) : String × Option Int :=
  let info := (alGet st.userInfo uid).getD []
  let displayName :=
    if pyTruthyOpt (alGet info "username") then "@" ++ (alGet info "username").getD ""
    else if pyTruthyOpt (alGet info "first_name") then (alGet info "first_name").getD ""
    else "User " ++ toString uid
  let lastUpdate :=
    if pyTruthyOpt (alGet info "last_update") then pyInt ((alGet info "last_update").getD "")
    else none
  (displayName, lastUpdate)

/-- `get_exercise_id_from_alias`: HGET on the alias index after
lowercasing the alias. -/
def get_exercise_id_from_alias (st : Store) (a : String) : Option String :=
  alGet st.exerciseAliases (pyLower a)

/-- The dict returned by `get_exercise_details` (fields `name` and `goal`
of the detail hash, `goal` parsed to an int with invalid values replaced
by 0) and, after `get_all_exercise_details`, the added `alias` entry. -/
structure PyExDetails where
  name : Option String
  goal : Option Int
  exAlias : Option String := none
deriving Repr, DecidableEq

/-- `get_exercise_details` of `src/redis_client.py`: HGETALL of the
detail hash; returns `None` when the hash is empty; when a `goal` field
is present it is parsed with `int(...)`, substituting 0 on failure. -/
def get_exercise_details (st : Store) (exId : String) : Option PyExDetails :=
  let h := (alGet st.exerciseDetails exId).getD []
  if h.isEmpty then none
  else some { name := alGet h "name",
              goal := match alGet h "goal" with
                      | none => none
                      | some g => some ((pyInt g).getD 0),
              exAlias := none }

/-- `get_all_exercise_details`: iterates the alias index, fetching each
referenced exercise's details and recording its alias; an empty alias
index yields an empty mapping. -/
def get_all_exercise_details (st : Store) : List (String × PyExDetails) :=
  if st.exerciseAliases.isEmpty then []
  else st.exerciseAliases.foldl (fun acc p =>
    match get_exercise_details st p.2 with
    | none => acc
    | some d => alSet acc p.2 { d with exAlias := some p.1 }) []

/-- `get_player_progress`: HGETALL of the player's score hash (the
`int(score)` conversion is the identity in this embedding). -/
def get_player_progress (st : Store) (uid : Nat) : List (String × Int) :=
  (alGet st.playerScores uid).getD []

/-- The spec's `getScore`: a player's total for one exercise, 0 when the
entry is absent (`progress.get(exercise_id, 0)` at every use site). -/
def getScore (st : Store) (uid : Nat) (exId : String) : Int :=
  (alGet (get_player_progress st uid) exId).getD 0

/-- Redis SADD on the model's player id set. -/
def sadd (l : List Nat) (x : Nat) : List Nat := if x ∈ l then l else l ++ [x]

/-- Redis HINCRBY on a score hash: add to the field (0 when absent) and
return the new value. -/
def hincrby (h : List (String × Int)) (f : String) (v : Int) :
    List (String × Int) × Int :=
  let newv := ((alGet h f).getD 0) + v
  (alSet h f newv, newv)

/-- `record_player_progress` of `src/redis_client.py`: updates user info
with the current timestamp, SADDs the player id, then HINCRBYs the score
and returns the new total. -/
def record_player_progress (st : Store) (uid : Nat) (fn : String)
    (un : Option String) (exId : String) (v : Int) (now : Int) : Store × Int :=
  let st1 := store_user_info st uid fn un (some now)
  let st2 := { st1 with playersSet := sadd st1.playersSet uid }
  let pr := hincrby ((alGet st2.playerScores uid).getD []) exId v
  ({ st2 with playerScores := alSet st2.playerScores uid pr.1 }, pr.2)

/-- The successful path of `reset_player_exercise`: updates user info
with the current timestamp, HSETs the exercise's score field to 0, SADDs
the player id and returns `True`. -/
def reset_player_exercise (st : Store) (uid : Nat) (fn : String)
    (un : Option String) (exId : String) (now : Int) : Store × Bool :=
  let st1 := store_user_info st uid fn un (some now)
  let zeroRow := alSet ((alGet st1.playerScores uid).getD []) exId 0
  let st2 := { st1 with playerScores := alSet st1.playerScores uid zeroRow }
  let st3 := { st2 with playersSet := sadd st2.playersSet uid }
  (st3, true)

/-- `get_all_players_progress`: iterates the `players:ids` set and
HGETALLs each player's score row (a registered player with no row yields
an empty mapping). -/
def get_all_players_progress (st : Store) : List (Nat × List (String × Int)) :=
  st.playersSet.map (fun uid => (uid, (alGet st.playerScores uid).getD []))

/-- The ledger part of `record_progress_handler` in `src/main.py`
(message parsing, reply formatting and the goal alert message are the
excluded command surface): with a positive rep count and a resolvable
alias it reads the exercise's details, snapshots `old_total` from
`get_player_progress(...).get(exercise_id, 0)`, records the progress and
reports the new total together with whether the goal-achieved alert fires
(`goal and isinstance(goal, int) and goal > 0` and
`old_total < goal <= new_total`).  `none` stands for the early returns. -/
def record_progress_handler (st : Store) (uid : Nat) (fn : String)
    (un : Option String) (cmdAlias : String) (reps : Int) (now : Int) :
    Store × Option (Int × Bool) :=
  if reps ≤ 0 then (st, none)
  else
    match get_exercise_id_from_alias st cmdAlias with
    | none => (st, none)
    | some exId =>
      match get_exercise_details st exId with
      | none => (st, none)
      | some details =>
        let oldTotal := (alGet (get_player_progress st uid) exId).getD 0
        let pr := record_player_progress st uid fn un exId reps now
        let crossed :=
          match details.goal with
          | none => false
          | some g => decide (0 < g ∧ oldTotal < g ∧ g ≤ pr.2)
        (pr.1, some (pr.2, crossed))

/-- The exception outcomes the claims distinguish: a `redis.RedisError`
raised by a store operation, any other exception raised by a store
operation, the `NameError` raised by `reset_player_exercise`'s generic
except handler (which reads the undefined name `user`), and the spec's
`StoreUnavailable`. -/
inductive PyExc where
  | redisError
  | otherError
  | nameError
  | storeUnavailable
deriving Repr, DecidableEq

/-- Which kind of exception, if any, the first store operation of a call
raises (the fault model for the error-handling claims). -/
inductive StoreFault where
  | redisFault
  | otherFault
deriving Repr, DecidableEq

/-- `record_player_progress` with the module-level connection and the
fault model made explicit: `if not redis_conn: return 0` yields a normal
result, and a storage exception propagates unhandled (the function has
no try/except). -/
def record_player_progress_run (conn : Option Store) (fault : Option StoreFault)
    (uid : Nat) (fn : String) (un : Option String) (exId : String)
    (v : Int) (now : Int) : Except PyExc (Option Store × Int) :=
  match conn with
  | none => Except.ok (none, 0)
  | some st =>
    match fault with
    | some StoreFault.redisFault => Except.error PyExc.redisError
    | some StoreFault.otherFault => Except.error PyExc.otherError
    | none =>
      let pr := record_player_progress st uid fn un exId v now
      Except.ok (some pr.1, pr.2)

/-- `get_all_players_progress` with the connection made explicit:
`if not redis_conn: return {}` yields an empty mapping. -/
def get_all_players_progress_run (conn : Option Store) :
    Except PyExc (List (Nat × List (String × Int))) :=
  match conn with
  | none => Except.ok []
  | some st => Except.ok (get_all_players_progress st)

/-- `reset_player_exercise` with the connection and fault model made
explicit, mirroring its try/except structure: no connection returns
`False`; a `redis.RedisError` is caught and returns `False`; any other
exception reaches the generic handler, whose f-string reads the
undefined name `user` (the parameter is `user_id`), so the handler
itself raises `NameError` instead of returning `False`. -/
def reset_player_exercise_run (conn : Option Store) (fault : Option StoreFault)
    (uid : Nat) (fn : String) (un : Option String) (exId : String)
    (now : Int) : Except PyExc (Option Store × Bool) :=
  match conn with
  | none => Except.ok (none, false)
  | some st =>
    match fault with
    | some StoreFault.redisFault => Except.ok (some st, false)
    | some StoreFault.otherFault => Except.error PyExc.nameError
    | none =>
      let pr := reset_player_exercise st uid fn un exId now
      Except.ok (some pr.1, pr.2)

/-- Modelled from the spec: `hard_reset_handler` in `src/main.py` calls
`setup_initial_data(hard_reset=True)`, but the `setup_initial_data` in
`src/redis_client.py` accepts no such parameter — the hard-reset variant
of that function is code of this repository missing from `src/`.  Per the
spec, `hardReset()` "clears all player scores, info, and the player
registry while re-seeding the exercise catalog": all `player:<id>` score
rows, all `user:info:<id>` records and the `players:ids` set are cleared,
and the catalog writes of the seeding pipeline are performed. -/
def hard_reset (st : Store) : Store :=
  seedWrites { st with playerScores := [], userInfo := [], playersSet := [] }

/-- One Ledger Engine mutation: a `record_player_progress` call or a
(successful) `reset_player_exercise` call. -/
inductive LedgerOp where
  | record (uid : Nat) (fn : String) (un : Option String) (exId : String)
      (amount : Int) (now : Int)
  | reset (uid : Nat) (fn : String) (un : Option String) (exId : String)
      (now : Int)
deriving Repr, DecidableEq

def applyOp (st : Store) : LedgerOp → Store
  | LedgerOp.record uid fn un exId a now =>
      (record_player_progress st uid fn un exId a now).1
  | LedgerOp.reset uid fn un exId now =>
      (reset_player_exercise st uid fn un exId now).1

def applyOps (st : Store) (ops : List LedgerOp) : Store := ops.foldl applyOp st

/-- The claims' precondition on increments: every recorded amount is
positive (resets carry no amount). -/
def posOp : LedgerOp → Prop
  | LedgerOp.record _ _ _ _ a _ => 0 < a
  | LedgerOp.reset _ _ _ _ _ => True

instance (op : LedgerOp) : Decidable (posOp op) := by
  cases op <;> simp [posOp] <;> infer_instance

/-- Whether an operation is an explicit reset of the given
(player, exercise) pair. -/
def resetsPair : LedgerOp → Nat → String → Prop
  | LedgerOp.reset uid _ _ exId _, uid2, exId2 => uid = uid2 ∧ exId = exId2
  | LedgerOp.record _ _ _ _ _ _, _, _ => False

instance (op : LedgerOp) (uid : Nat) (exId : String) :
    Decidable (resetsPair op uid exId) := by
  cases op <;> simp [resetsPair] <;> infer_instance

/-- Every stored total (with absence read as 0) is non-negative. -/
def storeNonNeg (st : Store) : Prop := ∀ uid exId, 0 ≤ getScore st uid exId

/-- The sort key of `sorted(..., key=lambda item: item[1]["name"])`. -/
def nameKey (p : String × PyExDetails) : String := p.2.name.getD ""

/-- Python's string comparison on the underlying code-point sequences:
lexicographic, shorter prefix first. -/
def strLeChars : List Char → List Char → Bool
  | [], _ => true
  | _ :: _, [] => false
  | a :: as, b :: bs =>
    if a.toNat < b.toNat then true
    else if b.toNat < a.toNat then false
    else strLeChars as bs

/-- Python's `<=` on strings (lexicographic by code point). -/
def strLe (a b : String) : Bool := strLeChars a.data b.data

/-- Insertion step of sorting exercise details by display name. -/
def insertByName (p : String × PyExDetails) :
    List (String × PyExDetails) → List (String × PyExDetails)
  | [] => [p]
  | q :: t => if strLe (nameKey p) (nameKey q) then p :: q :: t else q :: insertByName p t

/-- `sorted(all_exercise_details.items(), key=lambda item: item[1]["name"])`
in `src/main.py` (insertion sort by the display name). -/
def sortByName (l : List (String × PyExDetails)) : List (String × PyExDetails) :=
  l.foldr insertByName []

/-- The score matrix of `generate_all_progress_chart`
(`src/chart_generator.py` lines 100-104): rows are exercises, columns are
players, each cell is `exercise_data.get(user_id, {}).get(ex_id, 0)`. -/
def build_scores_matrix (exerciseIds : List String) (playerIds : List Nat)
    (exerciseData : List (Nat × List (String × Int))) : List (List Int) :=
  exerciseIds.map (fun exId =>
    playerIds.map (fun uid =>
      (alGet ((alGet exerciseData uid).getD []) exId).getD 0))

/-- The exercise details passed by `all_progress` in `src/main.py`:
`dict(sorted(all_exercise_details.items(), key=...))`. -/
def allSortedDetails (st : Store) : List (String × PyExDetails) :=
  sortByName (get_all_exercise_details st)

/-- The exercise ids of the leaderboard, in display-name order. -/
def allExIds (st : Store) : List String := (allSortedDetails st).map Prod.fst

/-- `player_ids = list(all_player_data.keys())` in `all_progress`. -/
def allPids (st : Store) : List Nat := (get_all_players_progress st).map Prod.fst

/-- The dense leaderboard matrix `all_progress` hands to the renderer. -/
def allMatrix (st : Store) : List (List Int) :=
  build_scores_matrix (allExIds st) (allPids st) (get_all_players_progress st)

/-- `recordProgress` iterated over a list of amounts for one
(player, exercise) pair with no intervening reset. -/
def recordSeq (st : Store) (uid : Nat) (fn : String) (un : Option String)
    (exId : String) (now : Int) (amounts : List Int) : Store :=
  amounts.foldl (fun s a => (record_player_progress s uid fn un exId a now).1) st

theorem alSet_isEmpty {α : Type} [DecidableEq α] {β : Type}
    (l : List (α × β)) (k : α) (v : β) : (alSet l k v).isEmpty = false := by
  cases l with
  | nil => simp [alSet]
  | cons p t =>
    obtain ⟨k1, v1⟩ := p
    by_cases h : k1 = k <;> simp [alSet, h]

theorem store_user_info_playerScores (st : Store) (uid : Nat) (fn : String)
    (un : Option String) (t : Option Int) :
    (store_user_info st uid fn un t).playerScores = st.playerScores := by
  unfold store_user_info
  by_cases h : pyTruthyOpt un <;> simp [h]

theorem store_user_info_playersSet (st : Store) (uid : Nat) (fn : String)
    (un : Option String) (t : Option Int) :
    (store_user_info st uid fn un t).playersSet = st.playersSet := by
  unfold store_user_info
  by_cases h : pyTruthyOpt un <;> simp [h]

theorem store_user_info_fields (st : Store) (uid : Nat) (fn : String)
    (un : Option String) (t : Int) :
    alGet ((alGet (store_user_info st uid fn un (some t)).userInfo uid).getD [])
        "first_name" = some fn ∧
    alGet ((alGet (store_user_info st uid fn un (some t)).userInfo uid).getD [])
        "last_update" = some (toString t) := by
  unfold store_user_info
  by_cases h : pyTruthyOpt un <;> simp [h, alGet_alSet]

theorem getScore_record (st : Store) (uid : Nat) (fn : String) (un : Option String)
    (exId : String) (v now : Int) (uid2 : Nat) (exId2 : String) :
    getScore (record_player_progress st uid fn un exId v now).1 uid2 exId2 =
      if uid = uid2 ∧ exId = exId2 then getScore st uid exId + v
      else getScore st uid2 exId2 := by
  unfold record_player_progress hincrby
  simp only [getScore, get_player_progress, store_user_info_playerScores, alGet_alSet]
  by_cases h1 : uid = uid2
  · subst h1
    by_cases h2 : exId = exId2
    · subst h2; simp [alGet_alSet]
    · simp [alGet_alSet, h2]
  · simp [h1]

theorem record_player_progress_snd (st : Store) (uid : Nat) (fn : String)
    (un : Option String) (exId : String) (v now : Int) :
    (record_player_progress st uid fn un exId v now).2 = getScore st uid exId + v := by
  unfold record_player_progress hincrby
  simp [getScore, get_player_progress, store_user_info_playerScores]

theorem getScore_reset (st : Store) (uid : Nat) (fn : String) (un : Option String)
    (exId : String) (now : Int) (uid2 : Nat) (exId2 : String) :
    getScore (reset_player_exercise st uid fn un exId now).1 uid2 exId2 =
      if uid = uid2 ∧ exId = exId2 then 0
      else getScore st uid2 exId2 := by
  unfold reset_player_exercise
  simp only [getScore, get_player_progress, store_user_info_playerScores, alGet_alSet]
  by_cases h1 : uid = uid2
  · subst h1
    by_cases h2 : exId = exId2
    · subst h2; simp [alGet_alSet]
    · simp [alGet_alSet, h2]
  · simp [h1]

theorem mem_sadd_self (l : List Nat) (x : Nat) : x ∈ sadd l x := by
  by_cases h : x ∈ l <;> simp [sadd, h]

theorem alGet_hsetDetail (d : List (String × List (String × String)))
    (exId nm gl k : String) :
    alGet (hsetDetail d exId nm gl) k =
      if exId = k then some (alSet (alSet ((alGet d exId).getD []) "name" nm) "goal" gl)
      else alGet d k := by
  unfold hsetDetail
  rw [alGet_alSet]

theorem seed_example_exists (d : List (String × List (String × String))) :
    keyExistsHash (seedDetails d) "plank" = true := by
  simp [seedDetails, EXERCISES, keyExistsHash, alGet_hsetDetail, alSet_isEmpty]

/-- C7: calling `setup_initial_data` twice in a row leaves exactly the
state of calling it once — the second call is a no-op, decided by the
presence of the first configured exercise's detail record. -/
theorem setup_initial_data_idempotent (st : Store) :
    setup_initial_data (setup_initial_data st) = setup_initial_data st := by
  unfold setup_initial_data
  by_cases h : keyExistsHash st.exerciseDetails exampleExId
  · simp [h]
  · have hk : keyExistsHash (seedWrites st).exerciseDetails exampleExId = true := by
      have h2 : exampleExId = "plank" := rfl
      rw [h2]
      exact seed_example_exists st.exerciseDetails
    simp [h, hk]

/-- C3: `resetExercise` sets the stored total to exactly 0 regardless of
the prior total (an unconditional set), records the first name and the
last-update timestamp in the player's metadata, re-registers the player,
and a `getScore` immediately after returns exactly 0. -/
theorem reset_then_getScore_zero (st : Store) (uid : Nat) (fn : String)
    (un : Option String) (exId : String) (now : Int) :
    (reset_player_exercise st uid fn un exId now).2 = true ∧
    getScore (reset_player_exercise st uid fn un exId now).1 uid exId = 0 ∧
    alGet ((alGet (reset_player_exercise st uid fn un exId now).1.userInfo uid).getD [])
        "first_name" = some fn ∧
    alGet ((alGet (reset_player_exercise st uid fn un exId now).1.userInfo uid).getD [])
        "last_update" = some (toString now) ∧
    uid ∈ (reset_player_exercise st uid fn un exId now).1.playersSet := by
  refine ⟨rfl, ?_, ?_, ?_, ?_⟩
  · rw [getScore_reset]; simp
  · have h := (store_user_info_fields st uid fn un now).1
    unfold reset_player_exercise
    simpa using h
  · have h := (store_user_info_fields st uid fn un now).2
    unfold reset_player_exercise
    simpa using h
  · unfold reset_player_exercise
    simpa [store_user_info_playersSet] using
      mem_sadd_self (store_user_info st uid fn un (some now)).playersSet uid

/-- C2: a sequence of `recordProgress` calls on one (player, exercise)
pair with positive amounts and no intervening reset leaves the stored
total at its starting value (0 for an absent entry) plus the sum of the
amounts. -/
theorem recordSeq_total_eq_sum (st : Store) (uid : Nat) (fn : String)
    (un : Option String) (exId : String) (now : Int) (amounts : List Int)
    (hpos : ∀ a ∈ amounts, 0 < a) :
    getScore (recordSeq st uid fn un exId now amounts) uid exId =
      getScore st uid exId + amounts.sum := by
  induction amounts generalizing st with
  | nil => simp [recordSeq]
  | cons a rest ih =>
    have hstep : recordSeq st uid fn un exId now (a :: rest) =
        recordSeq (record_player_progress st uid fn un exId a now).1
          uid fn un exId now rest := rfl
    rw [hstep, ih _ (fun b hb => hpos b (List.mem_cons_of_mem a hb)),
        getScore_record]
    simp
    omega

theorem recordSeq_total_eq_sum_witness :
    (∀ a ∈ ([30, 10] : List Int), 0 < a) ∧
    getScore (recordSeq emptyStore 1 "A" none "pushup" 0 [30, 10]) 1 "pushup" =
      getScore emptyStore 1 "pushup" + ([30, 10] : List Int).sum :=
  ⟨by decide, recordSeq_total_eq_sum emptyStore 1 "A" none "pushup" 0 [30, 10] (by decide)⟩

/-- C8: starting from a store whose totals are all non-negative, any
sequence of Ledger Engine operations with positive record amounts keeps
every total non-negative; a single operation never decreases a
(player, exercise) total unless it is an explicit reset of that pair,
and an explicit reset sets that pair's total to exactly 0. -/
theorem score_invariants :
    (∀ st ops, (∀ op ∈ ops, posOp op) → storeNonNeg st →
        storeNonNeg (applyOps st ops)) ∧
    (∀ st op uid exId, posOp op → ¬ resetsPair op uid exId →
        getScore st uid exId ≤ getScore (applyOp st op) uid exId) ∧
    (∀ st op uid exId, resetsPair op uid exId →
        getScore (applyOp st op) uid exId = 0) := by
  have hmono : ∀ st op uid exId, posOp op → ¬ resetsPair op uid exId →
      getScore st uid exId ≤ getScore (applyOp st op) uid exId := by
    intro st op uid exId hp hnr
    cases op with
    | record uid1 fn un exId1 a now =>
      simp only [applyOp]
      rw [getScore_record]
      by_cases h : uid1 = uid ∧ exId1 = exId
      · obtain ⟨rfl, rfl⟩ := h
        simp only [posOp] at hp
        simp
        omega
      · simp [h]
    | reset uid1 fn un exId1 now =>
      simp only [applyOp]
      rw [getScore_reset]
      have h : ¬ (uid1 = uid ∧ exId1 = exId) := by
        simpa [resetsPair] using hnr
      simp [h]
  have hzero : ∀ st op uid exId, resetsPair op uid exId →
      getScore (applyOp st op) uid exId = 0 := by
    intro st op uid exId hr
    cases op with
    | record uid1 fn un exId1 a now => simp [resetsPair] at hr
    | reset uid1 fn un exId1 now =>
      obtain ⟨rfl, rfl⟩ : uid1 = uid ∧ exId1 = exId := hr
      simp only [applyOp]
      rw [getScore_reset]
      simp
  refine ⟨?_, hmono, hzero⟩
  intro st ops hpos hnn
  induction ops generalizing st with
  | nil => simpa [applyOps] using hnn
  | cons op rest ih =>
    have hstep : applyOps st (op :: rest) = applyOps (applyOp st op) rest := rfl
    rw [hstep]
    refine ih _ (fun b hb => hpos b (List.mem_cons_of_mem op hb)) ?_
    intro uid exId
    by_cases hr : resetsPair op uid exId
    · rw [hzero st op uid exId hr]
    · exact le_trans (hnn uid exId)
        (hmono st op uid exId (hpos op (List.mem_cons_self op rest)) hr)

theorem score_invariants_witness :
    posOp (LedgerOp.record 1 "A" none "pushup" 5 0) ∧
    ¬ resetsPair (LedgerOp.record 1 "A" none "pushup" 5 0) 1 "pushup" ∧
    getScore emptyStore 1 "pushup" ≤
      getScore (applyOp emptyStore (LedgerOp.record 1 "A" none "pushup" 5 0)) 1 "pushup" ∧
    resetsPair (LedgerOp.reset 1 "A" none "pushup" 0) 1 "pushup" ∧
    getScore (applyOp emptyStore (LedgerOp.reset 1 "A" none "pushup" 0)) 1 "pushup" = 0 :=
  ⟨by decide, by decide,
   score_invariants.2.1 emptyStore (LedgerOp.record 1 "A" none "pushup" 5 0)
     1 "pushup" (by decide) (by decide),
   by decide,
   score_invariants.2.2 emptyStore (LedgerOp.reset 1 "A" none "pushup" 0)
     1 "pushup" (by decide)⟩

/-- C1: on a `recordProgress` call for a known exercise, with `oldTotal`
the snapshot read before the increment and `newTotal` the value the
increment returns, the goal-crossed flag is true iff the goal `g`
satisfies `g > 0` and `oldTotal < g <= newTotal`; in particular it is
false when the goal is 0 or absent. -/
theorem record_progress_goalCrossed_iff (st : Store) (uid : Nat) (fn : String)
    (un : Option String) (cmdAlias : String) (reps now : Int) (exId : String)
    (d : PyExDetails) (out : Int × Bool)
    (hpos : 0 < reps)
    (hid : get_exercise_id_from_alias st cmdAlias = some exId)
    (hd : get_exercise_details st exId = some d)
    (hout : (record_progress_handler st uid fn un cmdAlias reps now).2 = some out) :
    (out.2 = true ↔ ∃ g, d.goal = some g ∧ 0 < g ∧
        (alGet (get_player_progress st uid) exId).getD 0 < g ∧ g ≤ out.1) ∧
    ((d.goal = none ∨ d.goal = some 0) → out.2 = false) := by
  have hnle : ¬ reps ≤ 0 := not_le.mpr hpos
  unfold record_progress_handler at hout
  rw [if_neg hnle] at hout
  simp only [hid, hd, Option.some.injEq] at hout
  subst hout
  cases hg : d.goal with
  | none => simp [hg]
  | some g =>
    refine ⟨?_, ?_⟩
    · simp only [Option.some.injEq, decide_eq_true_eq]
      constructor
      · intro h
        exact ⟨g, rfl, h⟩
      · rintro ⟨g2, rfl, h⟩
        exact h
    · rintro (h | h)
      · exact absurd h (by simp)
      · obtain rfl : g = 0 := by injection h
        simp

def seededStore : Store := setup_initial_data emptyStore

/-- A seeded store in which player 1 already has 480 push-ups (Scenario A
of the spec's testable properties). -/
def preStore : Store :=
  { seededStore with playerScores := [(1, [("pushup", 480)])], playersSet := [1] }

def pushDetails : PyExDetails :=
  { name := some "Push-Ups", goal := some 500, exAlias := none }

theorem record_progress_goalCrossed_iff_witness :
    (0 : Int) < 30 ∧
    get_exercise_id_from_alias preStore "psh" = some "pushup" ∧
    get_exercise_details preStore "pushup" = some pushDetails ∧
    (record_progress_handler preStore 1 "A" none "psh" 30 5).2 = some (510, true) ∧
    ((510, true).2 = true ↔ ∃ g, pushDetails.goal = some g ∧ 0 < g ∧
        (alGet (get_player_progress preStore 1) "pushup").getD 0 < g ∧
        g ≤ (510, true).1) :=
  ⟨by decide, rfl, rfl, rfl,
   (record_progress_goalCrossed_iff preStore 1 "A" none "psh" 30 5 "pushup"
      pushDetails (510, true) (by decide) rfl rfl rfl).1⟩

theorem getD_map_of_lt {α β : Type} (f : α → β) (l : List α) (i : Nat)
    (da : α) (db : β) (h : i < l.length) :
    (l.map f).getD i db = f (l.getD i da) := by
  induction l generalizing i with
  | nil => simp at h
  | cons a t ih =>
    cases i with
    | zero => simp
    | succ n =>
      have hn : n < t.length := by simpa using h
      simpa using ih n hn

theorem strLeChars_total (x y : List Char) :
    strLeChars x y = true ∨ strLeChars y x = true := by
  induction x generalizing y with
  | nil => exact Or.inl rfl
  | cons a as ih =>
    cases y with
    | nil => exact Or.inr rfl
    | cons b bs =>
      by_cases hab : a.toNat < b.toNat
      · have hba : ¬ b.toNat < a.toNat := by omega
        exact Or.inl (by simp [strLeChars, hab])
      · by_cases hba : b.toNat < a.toNat
        · exact Or.inr (by simp [strLeChars, hab, hba])
        · rcases ih bs with h | h
          · exact Or.inl (by simp [strLeChars, hab, hba, h])
          · exact Or.inr (by simp [strLeChars, hab, hba, h])

theorem strLeChars_trans (x y z : List Char)
    (h1 : strLeChars x y = true) (h2 : strLeChars y z = true) :
    strLeChars x z = true := by
  induction x generalizing y z with
  | nil => rfl
  | cons a as ih =>
    cases y with
    | nil => simp [strLeChars] at h1
    | cons b bs =>
      cases z with
      | nil => simp [strLeChars] at h2
      | cons c cs =>
        simp only [strLeChars] at h1 h2 ⊢
        by_cases hab : a.toNat < b.toNat
        · by_cases hbc : b.toNat < c.toNat
          · have hac : a.toNat < c.toNat := by omega
            simp [hac]
          · by_cases hcb : c.toNat < b.toNat
            · simp [hbc, hcb] at h2
            · have hac : a.toNat < c.toNat := by omega
              simp [hac]
        · by_cases hba : b.toNat < a.toNat
          · simp [hab, hba] at h1
          · simp only [if_neg hab, if_neg hba] at h1
            by_cases hbc : b.toNat < c.toNat
            · have hac : a.toNat < c.toNat := by omega
              simp [hac]
            · by_cases hcb : c.toNat < b.toNat
              · simp [hbc, hcb] at h2
              · simp only [if_neg hbc, if_neg hcb] at h2
                have hac1 : ¬ a.toNat < c.toNat := by omega
                have hac2 : ¬ c.toNat < a.toNat := by omega
                simp only [if_neg hac1, if_neg hac2]
                exact ih bs cs h1 h2

/-- The comparison `sorted(...)` uses: display name of the left item at
most that of the right (Python string comparison). -/
def nameLe (a b : String × PyExDetails) : Prop :=
  strLe (nameKey a) (nameKey b) = true

theorem nameLe_total (a b : String × PyExDetails) : nameLe a b ∨ nameLe b a :=
  strLeChars_total (nameKey a).data (nameKey b).data

theorem nameLe_trans (a b c : String × PyExDetails)
    (h1 : nameLe a b) (h2 : nameLe b c) : nameLe a c :=
  strLeChars_trans (nameKey a).data (nameKey b).data (nameKey c).data h1 h2

theorem mem_insertByName (p q : String × PyExDetails)
    (l : List (String × PyExDetails)) :
    q ∈ insertByName p l → q = p ∨ q ∈ l := by
  induction l with
  | nil =>
    intro h
    simpa [insertByName] using h
  | cons r t ih =>
    intro h
    by_cases hle : strLe (nameKey p) (nameKey r)
    · simp only [insertByName, if_pos hle] at h
      rcases List.mem_cons.mp h with h | h
      · exact Or.inl h
      · exact Or.inr h
    · simp only [insertByName, if_neg hle] at h
      rcases List.mem_cons.mp h with h | h
      · exact Or.inr (by simp [h])
      · rcases ih h with h2 | h2
        · exact Or.inl h2
        · exact Or.inr (List.mem_cons_of_mem r h2)

theorem pairwise_insertByName (p : String × PyExDetails)
    (l : List (String × PyExDetails)) (h : List.Pairwise nameLe l) :
    List.Pairwise nameLe (insertByName p l) := by
  induction l with
  | nil => simp [insertByName]
  | cons q t ih =>
    rcases List.pairwise_cons.mp h with ⟨hq, ht⟩
    by_cases hle : strLe (nameKey p) (nameKey q)
    · rw [insertByName, if_pos hle]
      refine List.pairwise_cons.mpr ⟨?_, h⟩
      intro x hx
      rcases List.mem_cons.mp hx with rfl | hx
      · exact hle
      · exact nameLe_trans p q x hle (hq x hx)
    · rw [insertByName, if_neg hle]
      refine List.pairwise_cons.mpr ⟨?_, ih ht⟩
      intro x hx
      rcases mem_insertByName p x t hx with rfl | hx
      · rcases nameLe_total q x with h2 | h2
        · exact h2
        · exact absurd h2 (by simpa [nameLe] using hle)
      · exact hq x hx

theorem pairwise_sortByName (l : List (String × PyExDetails)) :
    List.Pairwise nameLe (sortByName l) := by
  induction l with
  | nil => simp [sortByName]
  | cons p t ih => exact pairwise_insertByName p (sortByName t) ih

/-- C9: the leaderboard matrix handed to the renderer is fully dense —
one row per listed exercise, each of length the number of listed
players, every cell being the stored value with missing entries
defaulting to 0 (so a pair with no entry in the store yields a 0 cell) —
and the exercises are ordered by display name. -/
theorem leaderboard_matrix_dense_sorted (st : Store) :
    (allMatrix st).length = (allExIds st).length ∧
    (∀ row ∈ allMatrix st, row.length = (allPids st).length) ∧
    (∀ i j, i < (allExIds st).length → j < (allPids st).length →
        ((allMatrix st).getD i []).getD j 0 =
          (alGet ((alGet (get_all_players_progress st) ((allPids st).getD j 0)).getD [])
              ((allExIds st).getD i "")).getD 0) ∧
    (∀ i j, i < (allExIds st).length → j < (allPids st).length →
        alGet ((alGet (get_all_players_progress st) ((allPids st).getD j 0)).getD [])
            ((allExIds st).getD i "") = none →
        ((allMatrix st).getD i []).getD j 0 = 0) ∧
    List.Pairwise nameLe (allSortedDetails st) := by
  have hcell : ∀ i j, i < (allExIds st).length → j < (allPids st).length →
      ((allMatrix st).getD i []).getD j 0 =
        (alGet ((alGet (get_all_players_progress st) ((allPids st).getD j 0)).getD [])
            ((allExIds st).getD i "")).getD 0 := by
    intro i j hi hj
    unfold allMatrix build_scores_matrix
    rw [getD_map_of_lt _ _ _ "" _ hi, getD_map_of_lt _ _ _ 0 _ hj]
  refine ⟨?_, ?_, hcell, ?_, pairwise_sortByName _⟩
  · simp [allMatrix, build_scores_matrix]
  · intro row hrow
    unfold allMatrix build_scores_matrix at hrow
    rcases List.mem_map.mp hrow with ⟨exId, _, rfl⟩
    simp [allPids]
  · intro i j hi hj hnone
    rw [hcell i j hi hj, hnone]
    rfl

/-- Scenario D's store: two players, one exercise logged by each, on a
two-exercise catalog. -/
def demoStore : Store :=
  { exerciseDetails := [("exA", [("name", "A"), ("goal", "10")]),
                        ("exB", [("name", "B"), ("goal", "20")])],
    exerciseAliases := [("a", "exA"), ("b", "exB")],
    playerScores := [(1, [("exA", 5)]), (2, [("exB", 7)])],
    userInfo := [],
    playersSet := [1, 2] }

theorem leaderboard_matrix_dense_sorted_witness :
    0 < (allExIds demoStore).length ∧ 1 < (allPids demoStore).length ∧
    alGet ((alGet (get_all_players_progress demoStore) ((allPids demoStore).getD 1 0)).getD [])
        ((allExIds demoStore).getD 0 "") = none ∧
    ((allMatrix demoStore).getD 0 []).getD 1 0 = 0 :=
  ⟨by decide, by decide, by decide,
   (leaderboard_matrix_dense_sorted demoStore).2.2.2.1 0 1 (by decide) (by decide)
     (by decide)⟩

/-- C10: a `store_user_info` call with no username deletes any
previously stored `username` field for that player, so a subsequent
display-name read falls back to the just-stored first name (or to
`"User <id>"` when the first name is empty). -/
theorem store_user_info_clears_username (st : Store) (uid : Nat) (fn : String)
    (t : Option Int) :
    alGet ((alGet (store_user_info st uid fn none t).userInfo uid).getD [])
        "username" = none ∧
    (get_user_display_name_and_time (store_user_info st uid fn none t) uid).1 =
      (if fn.isEmpty then "User " ++ toString uid else fn) := by
  have husername :
      alGet ((alGet (store_user_info st uid fn none t).userInfo uid).getD [])
        "username" = none := by
    unfold store_user_info
    cases t <;> simp [pyTruthyOpt, alGet_alSet, alGet_alDel]
  refine ⟨husername, ?_⟩
  have hfirst :
      alGet ((alGet (store_user_info st uid fn none t).userInfo uid).getD [])
        "first_name" = some fn := by
    unfold store_user_info
    cases t <;> simp [pyTruthyOpt, alGet_alSet]
  simp only [get_user_display_name_and_time, husername, hfirst, pyTruthyOpt]
  by_cases hfn : fn.isEmpty <;> simp [hfn]

/-- C4 (spec-modelled): `hardReset` clears all player score rows, all
player info records and the player registry, and re-seeds the exercise
catalog (alias index and per-exercise detail records) into the store. -/
theorem hard_reset_clears_and_reseeds (st : Store) :
    (hard_reset st).playerScores = [] ∧
    (hard_reset st).userInfo = [] ∧
    (hard_reset st).playersSet = [] ∧
    (hard_reset st).exerciseAliases = seedAliases ∧
    (∀ p ∈ EXERCISES,
        alGet ((alGet (hard_reset st).exerciseDetails p.1).getD []) "name" =
          some p.2.name ∧
        alGet ((alGet (hard_reset st).exerciseDetails p.1).getD []) "goal" =
          some (toString p.2.goal)) := by
  refine ⟨rfl, rfl, rfl, rfl, ?_⟩
  intro p hp
  simp only [EXERCISES, List.mem_cons, List.not_mem_nil, or_false] at hp
  have hdetails : (hard_reset st).exerciseDetails = seedDetails st.exerciseDetails := rfl
  rcases hp with rfl | rfl | rfl | rfl | rfl | rfl | rfl | rfl <;>
    simp [hdetails, seedDetails, EXERCISES, alGet_hsetDetail, alGet_alSet]

theorem hard_reset_clears_and_reseeds_witness :
    ("plank", (⟨"Plank (Seconds)", "plk", 300⟩ : ExerciseDef)) ∈ EXERCISES ∧
    alGet ((alGet (hard_reset emptyStore).exerciseDetails "plank").getD [])
        "name" = some "Plank (Seconds)" :=
  ⟨by decide,
   ((hard_reset_clears_and_reseeds emptyStore).2.2.2.2
      ("plank", ⟨"Plank (Seconds)", "plk", 300⟩) (by decide)).1⟩

/-- C5 counterexample: with the backing store unreachable (the module's
connection handle is `None`), `record_player_progress` returns the
normal-looking total 0 and `get_all_players_progress` returns an empty
mapping — neither call signals `StoreUnavailable`. -/
theorem store_unavailable_returns_defaults_cex :
    record_player_progress_run none none 1 "A" none "pushup" 5 0 =
      Except.ok (none, 0) ∧
    record_player_progress_run none none 1 "A" none "pushup" 5 0 ≠
      Except.error PyExc.storeUnavailable ∧
    get_all_players_progress_run none = Except.ok [] ∧
    get_all_players_progress_run none ≠ Except.error PyExc.storeUnavailable :=
  ⟨rfl, by simp [record_player_progress_run], rfl, by simp [get_all_players_progress_run]⟩

/-- C5 amended: with a live connection a storage exception raised during
`record_player_progress` propagates to the caller unhandled (the
function has no try/except); but when the connection handle is `None`,
`record_player_progress` returns total 0 and `get_all_players_progress`
returns an empty mapping instead of signalling `StoreUnavailable`. -/
theorem store_unavailable_amended :
    (∀ uid fn un exId v now,
        record_player_progress_run none none uid fn un exId v now =
          Except.ok (none, 0)) ∧
    get_all_players_progress_run none = Except.ok [] ∧
    (∀ st uid fn un exId v now,
        record_player_progress_run (some st) (some StoreFault.redisFault)
            uid fn un exId v now = Except.error PyExc.redisError) ∧
    (∀ st uid fn un exId v now,
        record_player_progress_run (some st) (some StoreFault.otherFault)
            uid fn un exId v now = Except.error PyExc.otherError) :=
  ⟨fun _ _ _ _ _ _ => rfl, rfl, fun _ _ _ _ _ _ _ => rfl, fun _ _ _ _ _ _ _ => rfl⟩

/-- C6: when a store operation inside `reset_player_exercise` raises an
exception that is not a `redis.RedisError`, the generic except handler
itself raises `NameError` (its f-string reads the undefined name `user`;
the parameter is `user_id`), so an exception escapes to the caller
instead of the call returning `False`. -/
theorem reset_nonredis_exception_escapes :
    reset_player_exercise_run (some emptyStore) (some StoreFault.otherFault)
        1 "A" none "pushup" 0 = Except.error PyExc.nameError := rfl

end WorkoutStreak
